import Mathlib

/-!
Verification of `src/simtradelab/utils/paths.py` (SimTradeLab).

The module locates the project root directory from an arbitrary working
directory and derives well-known subpaths from it.  We embed it shallowly:

* a `Path` is the list of name segments from the filesystem root, so that
  `p / seg` is `p ++ [seg]` and `p.parent` is `p.dropLast` (for a resolved
  absolute path, `Path('/').parent == Path('/')`, matched by
  `List.dropLast [] = []`);
* a filesystem state `FS` maps each path to `none` (nothing there) or to the
  kind of entry found there; `Path.is_dir()` and `Path.exists()` become
  lookups in that map;
* `get_project_root` receives the ambient state explicitly: the filesystem,
  the current working directory (`Path.cwd()`), and the resolved location of
  the module file itself (`Path(__file__).resolve()`).
-/

namespace SimTradeLab

/-- A filesystem path: the list of name segments from the filesystem root.
The empty list is the root itself. -/
abbrev Path := List String

/-- The kind of entry a filesystem holds at a path. -/
inductive Entry where
  | file
  | dir
deriving DecidableEq

/-- A filesystem state: what (if anything) sits at each path. -/
abbrev FS := Path → Option Entry

/-- Embeds `pathlib.Path.is_dir()`: true iff the path exists and is a
directory. -/
def isDir (fs : FS) (p : Path) : Bool :=
  match fs p with
  | some Entry.dir => true
  | _ => false

/-- Embeds `pathlib.Path.exists()`: true iff anything sits at the path. -/
def pathExists (fs : FS) (p : Path) : Bool :=
  (fs p).isSome

/-- A well-formed filesystem: an entry can only sit directly under a
directory.  Real filesystems satisfy this; it is needed for claims about
what probes under a file or a missing path can return. -/
def FS.wf (fs : FS) : Prop :=
  ∀ p s, (fs (p ++ [s])).isSome → fs p = some Entry.dir

/-- Embeds `_is_project_dir` from `paths.py`:

```
data_dir = path / 'data'
if not data_dir.is_dir():
    return False
return (data_dir / 'manifest.json').exists() or (path / 'strategies').is_dir()
``` -/
def _is_project_dir (fs : FS) (path : Path) : Bool :=
  let data_dir := path ++ ["data"]
  if !(isDir fs data_dir) then
    false
  else
    pathExists fs (data_dir ++ ["manifest.json"]) || isDir fs (path ++ ["strategies"])

/-- Embeds the Python candidate list `[current] + list(current.parents)`:
the path itself, then each ancestor obtained by repeatedly taking the
parent, ending at the filesystem root.  (Defined by structural recursion on
the first segment; `ancestorChain_eq` below certifies it equals the
parent-chain described by the source.) -/
def ancestorChain : Path → List Path
  | [] => [([] : Path)]
  | x :: t => (ancestorChain t).map (fun q => x :: q) ++ [([] : Path)]

/-- The chain really is `[p] + parents(p)`: for a non-root path it starts at
the path itself and continues with the chain of its parent. -/
theorem ancestorChain_eq (x : String) (t : List String) :
    ancestorChain (x :: t) = (x :: t) :: ancestorChain (x :: t).dropLast := by
  induction t generalizing x with
  | nil => rfl
  | cons y s ih =>
    show (ancestorChain (y :: s)).map (fun q => x :: q) ++ [([] : Path)] = _
    rw [ih y]
    simp [ancestorChain, List.dropLast]

/-- Embeds `get_project_root` from `paths.py`:

1. try `cwd` then `cwd.parent` against `_is_project_dir`;
2. walk `[current] + current.parents` against `_is_project_dir`;
3. walk the same chain looking for a `pyproject.toml` file;
4. fall back to `current.parent.parent.parent`.

`cwd` is `Path.cwd()` and `current` is `Path(__file__).resolve()`, passed
explicitly. -/
def get_project_root (fs : FS) (cwd current : Path) : Path :=
  match List.find? (fun c => _is_project_dir fs c) [cwd, cwd.dropLast] with
  | some c => c
  | none =>
    match List.find? (fun p => _is_project_dir fs p) (ancestorChain current) with
    | some p => p
    | none =>
      match List.find? (fun p => pathExists fs (p ++ ["pyproject.toml"])) (ancestorChain current) with
      | some p => p
      | none => current.dropLast.dropLast.dropLast

/-- Embeds `get_data_path`: `get_project_root() / 'data'`. -/
def get_data_path (fs : FS) (cwd current : Path) : Path :=
  get_project_root fs cwd current ++ ["data"]

/-- Embeds `get_strategies_path`: `get_project_root() / 'strategies'`. -/
def get_strategies_path (fs : FS) (cwd current : Path) : Path :=
  get_project_root fs cwd current ++ ["strategies"]

/-- Embeds the module-level `__getattr__` of `paths.py`: the lazy-constant
accessor, computing each recognized constant from the current state on
every access and raising `AttributeError` otherwise.  The error message is
the Python f-string `f"module 'paths' has no attribute {name!r}"`. -/
def moduleGetattr (fs : FS) (cwd current : Path) (name : String) : Except String Path :=
  if name = "PROJECT_ROOT" then
    Except.ok (get_project_root fs cwd current)
  else if name = "DATA_PATH" then
    Except.ok (get_data_path fs cwd current)
  else if name = "STRATEGIES_PATH" then
    Except.ok (get_strategies_path fs cwd current)
  else if name = "ADJ_PRE_CACHE_PATH" then
    Except.ok (get_data_path fs cwd current ++ ["ptrade_adj_pre.parquet"])
  else if name = "ADJ_POST_CACHE_PATH" then
    Except.ok (get_data_path fs cwd current ++ ["ptrade_adj_post.parquet"])
  else
    Except.error ("module \x27paths\x27 has no attribute \x27" ++ name ++ "\x27")

/-- The five recognized lazy-constant names. -/
def recognizedNames : List String :=
  ["PROJECT_ROOT", "DATA_PATH", "STRATEGIES_PATH",
   "ADJ_PRE_CACHE_PATH", "ADJ_POST_CACHE_PATH"]

/-- A concrete state for tests: a root directory `p` containing only an
empty `data` directory (no manifest, no strategies). -/
def fsOnlyData : FS := fun p =>
  if p = [] then some Entry.dir
  else if p = ["p"] then some Entry.dir
  else if p = ["p", "data"] then some Entry.dir
  else none

/-- C2: `_is_project_dir path` is true iff `path/data` is an existing
directory and (`path/data/manifest.json` exists or `path/strategies` is an
existing directory); and a directory holding only an empty `data`
subdirectory — no manifest, no `strategies` — is rejected. -/
theorem isProjectDir_spec :
    (∀ (fs : FS) (path : Path),
      (_is_project_dir fs path = true ↔
        (isDir fs (path ++ ["data"]) = true ∧
          (pathExists fs ((path ++ ["data"]) ++ ["manifest.json"]) = true ∨
            isDir fs (path ++ ["strategies"]) = true)))) ∧
    _is_project_dir fsOnlyData ["p"] = false := by
  constructor
  · intro fs path
    simp only [_is_project_dir]
    cases h : isDir fs (path ++ ["data"]) with
    | false => simp [h]
    | true => simp [h, Bool.or_eq_true]
  · decide

/-- C5: `get_data_path` and `get_strategies_path` are exactly
`get_project_root` joined with `"data"` and `"strategies"`, for every
filesystem state, working directory and module location. -/
theorem dataPath_strategiesPath_join (fs : FS) (cwd current : Path) :
    get_data_path fs cwd current = get_project_root fs cwd current ++ ["data"] ∧
    get_strategies_path fs cwd current = get_project_root fs cwd current ++ ["strategies"] :=
  ⟨rfl, rfl⟩

/-- A concrete state for tests: a project root `p` (with `data/manifest.json`)
that also has a non-project subdirectory `p/sub`. -/
def fsProjA : FS := fun p =>
  if p = [] then some Entry.dir
  else if p = ["p"] then some Entry.dir
  else if p = ["p", "data"] then some Entry.dir
  else if p = ["p", "data", "manifest.json"] then some Entry.file
  else if p = ["p", "sub"] then some Entry.dir
  else none

/-- A concrete state for tests: the working directory `w` is not a project
dir, the module file sits at `a/b/u/f.py`, the ancestor `a/b` is a project
dir (`data/` + `strategies/`), and the shallower ancestor `a` holds a
`pyproject.toml`. -/
def fsW1 : FS := fun p =>
  if p = [] then some Entry.dir
  else if p = ["w"] then some Entry.dir
  else if p = ["a"] then some Entry.dir
  else if p = ["a", "pyproject.toml"] then some Entry.file
  else if p = ["a", "b"] then some Entry.dir
  else if p = ["a", "b", "data"] then some Entry.dir
  else if p = ["a", "b", "strategies"] then some Entry.dir
  else if p = ["a", "b", "u"] then some Entry.dir
  else if p = ["a", "b", "u", "f.py"] then some Entry.file
  else none

/-- A concrete state for tests: a completely empty filesystem, on which
every probe fails. -/
def fsEmpty : FS := fun _ => none

/-- C3: if the current working directory is itself a valid project root,
`get_project_root` returns it unchanged; if it is not but its direct parent
is, `get_project_root` returns that parent. -/
theorem getProjectRoot_cwd_first (fs : FS) (cwd current : Path) :
    (_is_project_dir fs cwd = true → get_project_root fs cwd current = cwd) ∧
    (_is_project_dir fs cwd = false → _is_project_dir fs cwd.dropLast = true →
      get_project_root fs cwd current = cwd.dropLast) := by
  constructor
  · intro h
    simp [get_project_root, List.find?, h]
  · intro h1 h2
    simp [get_project_root, List.find?, h1, h2]

/-- Witness for C3: on `fsProjA`, running from the project root `p` returns
`p` itself, and running from the subdirectory `p/sub` returns the parent
`p`. -/
theorem getProjectRoot_cwd_first_witness :
    get_project_root fsProjA ["p"] ["a", "b", "c", "d"] = ["p"] ∧
    get_project_root fsProjA ["p", "sub"] ["a", "b", "c", "d"] = ["p"] :=
  ⟨(getProjectRoot_cwd_first fsProjA ["p"] ["a", "b", "c", "d"]).1 (by decide),
   (getProjectRoot_cwd_first fsProjA ["p", "sub"] ["a", "b", "c", "d"]).2
     (by decide) (by decide)⟩

/-- C1: when neither the working directory nor its parent qualifies, the
walk over `[current] + parents` against `_is_project_dir` decides the
result: whatever ancestor it finds first is returned — for every filesystem
state, so in particular regardless of where any `pyproject.toml` sits — and
the `pyproject.toml` walk (followed by the fixed fallback) is consulted
exactly when that walk finds nothing. -/
theorem getProjectRoot_sourceWalk_precedence (fs : FS) (cwd current : Path)
    (h1 : _is_project_dir fs cwd = false)
    (h2 : _is_project_dir fs cwd.dropLast = false) :
    (∀ p, List.find? (fun q => _is_project_dir fs q) (ancestorChain current) = some p →
        get_project_root fs cwd current = p) ∧
    (List.find? (fun q => _is_project_dir fs q) (ancestorChain current) = none →
      get_project_root fs cwd current =
        (List.find? (fun q => pathExists fs (q ++ ["pyproject.toml"]))
            (ancestorChain current)).getD
          current.dropLast.dropLast.dropLast) := by
  constructor
  · intro p hp
    simp [get_project_root, List.find?, h1, h2, hp]
  · intro hn
    simp only [get_project_root, List.find?, h1, h2, hn]
    cases List.find? (fun q => pathExists fs (q ++ ["pyproject.toml"])) (ancestorChain current) with
    | none => rfl
    | some p => rfl

/-- Witness for C1: on `fsW1` the working directory `w` and its parent fail,
the ancestor `a/b` of the module file `a/b/u/f.py` passes
`_is_project_dir`, and it is returned even though the shallower ancestor
`a` holds a `pyproject.toml`. -/
theorem getProjectRoot_sourceWalk_precedence_witness :
    get_project_root fsW1 ["w"] ["a", "b", "u", "f.py"] = ["a", "b"] :=
  (getProjectRoot_sourceWalk_precedence fsW1 ["w"] ["a", "b", "u", "f.py"]
      (by decide) (by decide)).1 ["a", "b"] (by decide)

/-- Counterexample for C4: on an empty filesystem (no strategy succeeds)
with the module file at `a/b/c/d/e`, the code returns
`current.parent.parent.parent = a/b`, but the path three levels up from the
module's containing directory `a/b/c/d` is `a`, and the two differ. -/
theorem getProjectRoot_fallback_counterexample :
    get_project_root fsEmpty ["w"] ["a", "b", "c", "d", "e"] = ["a", "b"] ∧
    (["a", "b", "c", "d", "e"] : Path).dropLast.dropLast.dropLast.dropLast = ["a"] ∧
    (["a", "b"] : Path) ≠ (["a"] : Path) := by
  decide

/-- C4 (amended): when no strategy succeeds, `get_project_root` returns the
path three levels up from the module's resolved file location itself —
`current.parent.parent.parent`, i.e. two levels up from its containing
directory. -/
theorem getProjectRoot_fallback (fs : FS) (cwd current : Path)
    (h1 : _is_project_dir fs cwd = false)
    (h2 : _is_project_dir fs cwd.dropLast = false)
    (h3 : List.find? (fun p => _is_project_dir fs p) (ancestorChain current) = none)
    (h4 : List.find? (fun p => pathExists fs (p ++ ["pyproject.toml"]))
        (ancestorChain current) = none) :
    get_project_root fs cwd current = current.dropLast.dropLast.dropLast := by
  simp [get_project_root, List.find?, h1, h2, h3, h4]

/-- Witness for C4 (amended): on the empty filesystem with the module file
at `a/b/c/d/e`, the fallback yields `a/b`. -/
theorem getProjectRoot_fallback_witness :
    get_project_root fsEmpty ["w"] ["a", "b", "c", "d", "e"] = ["a", "b"] :=
  getProjectRoot_fallback fsEmpty ["w"] ["a", "b", "c", "d", "e"]
    (by decide) (by decide) (by decide) (by decide)

/-- C6: the lazy-constant accessor maps each recognized name to exactly the
value in the table — `PROJECT_ROOT` to `get_project_root()`, `DATA_PATH` to
`get_data_path()`, `STRATEGIES_PATH` to `get_strategies_path()`, and the
two cache paths to `get_data_path()` joined with the parquet file names —
for every filesystem state; and it recomputes from the state given at
access time rather than caching, witnessed by two states on which the same
access yields different roots. -/
theorem lazyConstants_values (fs : FS) (cwd current : Path) :
    (moduleGetattr fs cwd current "PROJECT_ROOT" =
      Except.ok (get_project_root fs cwd current) ∧
    moduleGetattr fs cwd current "DATA_PATH" =
      Except.ok (get_data_path fs cwd current) ∧
    moduleGetattr fs cwd current "STRATEGIES_PATH" =
      Except.ok (get_strategies_path fs cwd current) ∧
    moduleGetattr fs cwd current "ADJ_PRE_CACHE_PATH" =
      Except.ok (get_data_path fs cwd current ++ ["ptrade_adj_pre.parquet"]) ∧
    moduleGetattr fs cwd current "ADJ_POST_CACHE_PATH" =
      Except.ok (get_data_path fs cwd current ++ ["ptrade_adj_post.parquet"])) ∧
    (moduleGetattr fsProjA ["p"] ["a", "b", "c", "d"] "PROJECT_ROOT" =
        Except.ok (["p"] : Path) ∧
      moduleGetattr fsEmpty ["p"] ["a", "b", "c", "d"] "PROJECT_ROOT" =
        Except.ok (["a"] : Path) ∧
      (["p"] : Path) ≠ (["a"] : Path)) := by
  exact ⟨⟨rfl, rfl, rfl, rfl, rfl⟩, rfl, rfl, by decide⟩

/-- C7: for every name outside the five recognized lazy-constant names the
accessor fails with the `AttributeError` message, which contains the
requested name between a fixed prefix text and a fixed suffix text; and it
does not fail for any of the five recognized names. -/
theorem getattr_unknown_name (fs : FS) (cwd current : Path) (name : String)
    (h : ¬ name ∈ recognizedNames) :
    (∃ a b, moduleGetattr fs cwd current name = Except.error (a ++ name ++ b)) ∧
    moduleGetattr fs cwd current name =
      Except.error ("module \x27paths\x27 has no attribute \x27" ++ name ++ "\x27") ∧
    ∀ n ∈ recognizedNames, ∃ p, moduleGetattr fs cwd current n = Except.ok p := by
  simp only [recognizedNames, List.mem_cons, List.not_mem_nil, or_false, not_or] at h
  obtain ⟨h1, h2, h3, h4, h5⟩ := h
  refine ⟨⟨"module \x27paths\x27 has no attribute \x27", "\x27", ?_⟩, ?_, ?_⟩
  · simp [moduleGetattr, h1, h2, h3, h4, h5]
  · simp [moduleGetattr, h1, h2, h3, h4, h5]
  · intro n hn
    simp only [recognizedNames, List.mem_cons, List.not_mem_nil, or_false] at hn
    rcases hn with rfl | rfl | rfl | rfl | rfl
    · exact ⟨_, rfl⟩
    · exact ⟨_, rfl⟩
    · exact ⟨_, rfl⟩
    · exact ⟨_, rfl⟩
    · exact ⟨_, rfl⟩

/-- Witness for C7: requesting the unrecognized name `BOGUS` yields the
`AttributeError` message carrying that name. -/
theorem getattr_unknown_name_witness :
    moduleGetattr fsEmpty [] [] "BOGUS" =
      Except.error ("module \x27paths\x27 has no attribute \x27BOGUS\x27") :=
  (getattr_unknown_name fsEmpty [] [] "BOGUS" (by decide)).2.1

/-- A concrete well-formed state for tests: the root directory holds a
single regular file `u`. -/
def fs1 : FS := fun p =>
  if p = [] then some Entry.dir
  else if p = ["u"] then some Entry.file
  else none

/-- The state `fs1` is well-formed: entries sit only directly under
directories. -/
theorem fs1_wf : FS.wf fs1 := by
  intro p s h
  cases p with
  | nil => simp [fs1]
  | cons x t =>
    exfalso
    simp only [fs1, List.cons_append] at h
    rw [if_neg (by simp), if_neg (by simp)] at h
    simp at h

/-- C8: on a well-formed filesystem a candidate path that is missing or not
a directory makes `_is_project_dir` false rather than raising — its `data`
probe sees nothing; a missing path likewise makes both elementary probes
false; and `get_project_root` is total, always returning a path (the
embedding has no error outcome to model because the source has none). -/
theorem probes_never_raise (fs : FS) (hwf : FS.wf fs) (path : Path)
    (h : fs path ≠ some Entry.dir) :
    _is_project_dir fs path = false ∧
    (fs path = none → isDir fs path = false ∧ pathExists fs path = false) ∧
    ∀ cwd current, ∃ p, get_project_root fs cwd current = p := by
  have hdata : fs (path ++ ["data"]) = none := by
    cases hd : fs (path ++ ["data"]) with
    | none => rfl
    | some e => exact absurd (hwf path "data" (by simp [hd])) h
  refine ⟨?_, ?_, fun cwd current => ⟨_, rfl⟩⟩
  · simp [_is_project_dir, isDir, hdata]
  · intro hn
    constructor
    · simp [isDir, hn]
    · simp [pathExists, hn]

/-- Witness for C8: on `fs1` the regular file `u` and the missing path `z`
are both rejected by `_is_project_dir` without error. -/
theorem probes_never_raise_witness :
    _is_project_dir fs1 ["u"] = false ∧ _is_project_dir fs1 ["z"] = false :=
  ⟨(probes_never_raise fs1 fs1_wf ["u"] (by decide)).1,
   (probes_never_raise fs1 fs1_wf ["z"] (by decide)).1⟩

/-- C9: every operation is a deterministic pure function of the filesystem
state and the working directory: two runs over states that agree on every
path (and the same working directory and module location) return equal
results, and no operation produces a modified state — each returns only a
path (or an error string), never a filesystem. -/
theorem operations_pure_deterministic (fs fs2 : FS) (cwd current : Path)
    (h : ∀ p, fs p = fs2 p) :
    (∀ path, _is_project_dir fs path = _is_project_dir fs2 path) ∧
    get_project_root fs cwd current = get_project_root fs2 cwd current ∧
    get_data_path fs cwd current = get_data_path fs2 cwd current ∧
    get_strategies_path fs cwd current = get_strategies_path fs2 cwd current ∧
    ∀ name, moduleGetattr fs cwd current name = moduleGetattr fs2 cwd current name := by
  have hfs : fs = fs2 := funext h
  subst hfs
  exact ⟨fun _ => rfl, rfl, rfl, rfl, fun _ => rfl⟩

/-- Witness for C9: two runs of `get_project_root` over the same state and
working directory agree. -/
theorem operations_pure_deterministic_witness :
    get_project_root fsW1 ["w"] ["a", "b", "u", "f.py"] =
      get_project_root fsW1 ["w"] ["a", "b", "u", "f.py"] :=
  (operations_pure_deterministic fsW1 fsW1 ["w"] ["a", "b", "u", "f.py"]
      (fun _ => rfl)).2.1

/-- Modelled from the claim for comparison: the variant of
`get_project_root` whose upward walks (strategies 2 and 3) start at the
containing directory of the module file — candidate list
`parents(current)` — instead of at the resolved file itself. -/
def get_project_root_fromDir (fs : FS) (cwd current : Path) : Path :=
  match List.find? (fun c => _is_project_dir fs c) [cwd, cwd.dropLast] with
  | some c => c
  | none =>
    match List.find? (fun p => _is_project_dir fs p) (ancestorChain current.dropLast) with
    | some p => p
    | none =>
      match List.find? (fun p => pathExists fs (p ++ ["pyproject.toml"]))
          (ancestorChain current.dropLast) with
      | some p => p
      | none => current.dropLast.dropLast.dropLast

/-- C10: starting the upward walks at the resolved module file itself never
changes the result: on a well-formed filesystem where that location is a
regular file, `_is_project_dir` is false at the file, no `pyproject.toml`
exists under it, and `get_project_root` coincides with the variant whose
walks start at the containing directory. -/
theorem walk_start_at_file_irrelevant (fs : FS) (cwd current : Path)
    (hwf : FS.wf fs) (hfile : fs current = some Entry.file) (hne : current ≠ []) :
    _is_project_dir fs current = false ∧
    pathExists fs (current ++ ["pyproject.toml"]) = false ∧
    get_project_root fs cwd current = get_project_root_fromDir fs cwd current := by
  have hchild : ∀ s, fs (current ++ [s]) = none := by
    intro s
    cases hd : fs (current ++ [s]) with
    | none => rfl
    | some e =>
      have hdir := hwf current s (by simp [hd])
      rw [hfile] at hdir
      exact absurd hdir (by simp)
  have hipd : _is_project_dir fs current = false := by
    simp [_is_project_dir, isDir, hchild "data"]
  have hpy : pathExists fs (current ++ ["pyproject.toml"]) = false := by
    simp [pathExists, hchild "pyproject.toml"]
  refine ⟨hipd, hpy, ?_⟩
  obtain ⟨x, t, rfl⟩ : ∃ x t, current = x :: t := by
    cases current with
    | nil => exact absurd rfl hne
    | cons x t => exact ⟨x, t, rfl⟩
  simp only [List.cons_append] at hpy
  simp only [get_project_root, get_project_root_fromDir, ancestorChain_eq x t, List.find?]
  simp [hipd, hpy]

/-- Witness for C10: on `fs1`, whose only entry under the root is the
regular file `u`, the walk starting at the file agrees with the walk
starting at its containing directory. -/
theorem walk_start_at_file_irrelevant_witness :
    get_project_root fs1 [] ["u"] = get_project_root_fromDir fs1 [] ["u"] :=
  (walk_start_at_file_irrelevant fs1 [] ["u"] fs1_wf (by decide) (by decide)).2.2

end SimTradeLab
